import Mathlib

/-!
Shallow embedding of the YuvaManthan backend (`src/server.js`), a REST
backend for a crowdsourced problem/solution platform, together with proofs
of the specified properties of its handlers.

Modelling conventions:
* Mongo document ids and timestamps are `Nat`.
* The bcrypt hash primitive, the bcrypt compare primitive and the Cloudinary
  upload/destroy calls are external black boxes; they are passed to the
  handlers as function parameters (`hash`, `compare`, `upload`, `destroy`).
* An `upload` call returns `Except String String`: `.ok ref` is the secure
  URL Cloudinary returns, `.error e` is a rejected upload promise, which in
  the JavaScript source throws into the surrounding try/catch.
* Every Cloudinary call a handler issues is recorded in an `AssetCall`
  trace list, in issue order, so ordering and call-count properties can be
  stated.
* A request body field of type `string | undefined` is `Option String`;
  the JavaScript falsy-or merge `x || old` is `jsFalsyOr`.
* The persistent store is a `List` of records; `save()` on a fetched
  document is modelled by replacing the record with the matching id.
-/

/-- A User document (`userSchema`, server.js lines 42-47): unique username,
unique email, bcrypt-hashed password. -/
structure UserR where
  id : Nat
  username : String
  email : String
  password : String
  deriving Repr, DecidableEq

/-- A Problem document (`problemSchema`, server.js lines 50-58): title,
description, location, optional Cloudinary image URL, owner id, creation
time, and a status string (enum "open"/"solved", default "open"). -/
structure ProblemR where
  id : Nat
  title : String
  description : String
  location : String
  image : Option String
  postedBy : Nat
  createdAt : Nat
  status : String
  deriving Repr, DecidableEq

/-- A Solution document (`solutionSchema`, server.js lines 61-67): the
`upvotes` field is the array of upvoter user ids. -/
structure SolutionR where
  id : Nat
  description : String
  problemId : Nat
  postedBy : Nat
  upvotes : List Nat
  createdAt : Nat
  deriving Repr, DecidableEq

/-- The identity claims embedded in a signed JWT (`jwt.sign({userId,
username}, ...)`, server.js lines 168-172). -/
structure TokenPayload where
  userId : Nat
  username : String
  deriving Repr, DecidableEq

/-- The public user summary returned by register/login (server.js line
177). -/
structure UserSummary where
  id : Nat
  username : String
  email : String
  deriving Repr, DecidableEq

/-- Outcome of an auth endpoint: an HTTP status plus either the success
payload (message, token claims, public summary) or an error message body. -/
inductive AuthResult where
  | ok (status : Nat) (message : String) (token : TokenPayload) (user : UserSummary)
  | err (status : Nat) (message : String)
  deriving Repr, DecidableEq

/-- `User.findOne({$or: [{email}, {username}]})`
(server.js line 150): true iff some stored user has the same email or the
same username. -/
def existingUser (users : List UserR) (email username : String) : Bool :=
  users.any (fun u => u.email == email || u.username == username)

/-- POST `/api/auth/register` (server.js lines 145-182). Returns the
response and the resulting user collection. `hash` is the external
`bcrypt.hash` primitive; `newId` models the Mongo-generated id. -/
def register (hash : String → String) (users : List UserR) (newId : Nat)
    (username email password : String) : AuthResult × List UserR :=
  if existingUser users email username then
    (.err 400 "User already exists", users)
  else
    (.ok 201 "User created successfully" ⟨newId, username⟩ ⟨newId, username, email⟩,
      users ++ [⟨newId, username, email, hash password⟩])

/-- `User.findOne({email})` (server.js line 189). -/
def findUserByEmail (users : List UserR) (email : String) : Option UserR :=
  users.find? (fun u => u.email == email)

/-- POST `/api/auth/login` (server.js lines 184-215). `compare` is the
external `bcrypt.compare` primitive (plaintext, stored hash). -/
def login (compare : String → String → Bool) (users : List UserR)
    (email password : String) : AuthResult :=
  match findUserByEmail users email with
  | none => .err 400 "Invalid credentials"
  | some u =>
    if compare password u.password then
      .ok 200 "Login successful" ⟨u.id, u.username⟩ ⟨u.id, u.username, u.email⟩
    else
      .err 400 "Invalid credentials"

/-- A Cloudinary call issued by a handler, in issue order: an
`upload_stream` call on the raw bytes, or a `uploader.destroy` call on a
derived public id. -/
inductive AssetCall where
  | upload (bytes : String)
  | destroy (publicId : String)
  deriving Repr, DecidableEq

/-- Models the JavaScript falsy-or merge `v || old` for a request body
field `v : string | undefined` (server.js lines 289-291): `undefined`
(here `none`) and the empty string are falsy, so they keep `old`; any
other string wins. -/
def jsFalsyOr (v : Option String) (old : String) : String :=
  match v with
  | none => old
  | some s => if s = "" then old else s

/-- The Cloudinary public id derived from a stored image URL before a
destroy call (server.js lines 298-299 and 336-337):
`"crowdsolve/" + ref.split('/').pop().split('.')[0]`. -/
def publicIdOf (ref : String) : String :=
  "crowdsolve/" ++ (((ref.splitOn "/").getLastD "").splitOn ".").headD ""

/-- `Problem.findById(id)` (server.js lines 260, 277, 322). -/
def findProblem (store : List ProblemR) (i : Nat) : Option ProblemR :=
  store.find? (fun q => q.id == i)

/-- `problem.save()` on a document previously fetched by id: the stored
record with that id is replaced, all others are untouched. -/
def saveProblem (store : List ProblemR) (p : ProblemR) : List ProblemR :=
  store.map (fun q => if q.id = p.id then p else q)

/-- An authenticated, multipart-parsed request to POST `/api/problems`
(server.js lines 229-255): the identity from the verified token, the body
fields, and the optional attached image bytes (`req.file`). -/
structure CreateProblemRequest where
  userId : Nat
  title : String
  description : String
  location : String
  file : Option String
  deriving Repr, DecidableEq

/-- POST `/api/problems` handler (server.js lines 229-255). If image bytes
are attached they are uploaded to Cloudinary first; a failed upload throws
into the catch block, answering 500 with no record written. Otherwise a
new Problem is constructed (schema default `status = "open"`, `createdAt =
now`) and saved. Returns (HTTP status, resulting store, Cloudinary call
trace). -/
def createProblem (upload : String → Except String String)
    (store : List ProblemR) (newId now : Nat) (req : CreateProblemRequest) :
    Nat × List ProblemR × List AssetCall :=
  match req.file with
  | none =>
    (201, store ++ [⟨newId, req.title, req.description, req.location, none,
      req.userId, now, "open"⟩], [])
  | some bytes =>
    match upload bytes with
    | .error _ => (500, store, [.upload bytes])
    | .ok ref =>
      (201, store ++ [⟨newId, req.title, req.description, req.location, some ref,
        req.userId, now, "open"⟩], [.upload bytes])

/-- An authenticated, multipart-parsed request to PUT `/api/problems/:id`
(server.js lines 274-317): body fields are `string | undefined`, `file`
is the optional new image bytes. -/
structure PutProblemRequest where
  userId : Nat
  problemId : Nat
  title : Option String
  description : Option String
  location : Option String
  file : Option String
  deriving Repr, DecidableEq

/-- PUT `/api/problems/:id` handler (server.js lines 274-317). Locate by
id (404 if absent), check ownership (403 on mismatch), merge body fields
with the falsy-or `||` pattern, then, if new image bytes are attached:
destroy the old image's public id when one exists (result swallowed by the
inner try/catch), upload the new bytes (a failure throws to the outer
catch: 500, nothing saved), and only then save. Returns (HTTP status,
resulting store, Cloudinary call trace). -/
def putProblem (upload : String → Except String String)
    (destroy : String → Except String Unit)
    (store : List ProblemR) (req : PutProblemRequest) :
    Nat × List ProblemR × List AssetCall :=
  match findProblem store req.problemId with
  | none => (404, store, [])
  | some p =>
    if p.postedBy = req.userId then
      let p1 : ProblemR := { p with
        title := jsFalsyOr req.title p.title
        description := jsFalsyOr req.description p.description
        location := jsFalsyOr req.location p.location }
      match req.file with
      | none => (200, saveProblem store p1, [])
      | some bytes =>
        let delCalls : List AssetCall :=
          match p.image with
          | some oldRef =>
            let _ := destroy (publicIdOf oldRef)
            [.destroy (publicIdOf oldRef)]
          | none => []
        match upload bytes with
        | .error _ => (500, store, delCalls ++ [.upload bytes])
        | .ok newRef =>
          (200, saveProblem store { p1 with image := some newRef },
            delCalls ++ [.upload bytes])
    else
      (403, store, [])

/-- DELETE `/api/problems/:id` handler (server.js lines 320-350). Locate
by id (404), check ownership (403), destroy the attached image's public id
when one exists (result swallowed by the inner try/catch), then
`findByIdAndDelete` and answer 200. Returns (HTTP status, resulting store,
Cloudinary call trace). -/
def deleteProblem (destroy : String → Except String Unit)
    (store : List ProblemR) (userId problemId : Nat) :
    Nat × List ProblemR × List AssetCall :=
  match findProblem store problemId with
  | none => (404, store, [])
  | some p =>
    if p.postedBy = userId then
      let delCalls : List AssetCall :=
        match p.image with
        | some ref =>
          let _ := destroy (publicIdOf ref)
          [.destroy (publicIdOf ref)]
        | none => []
      (200, store.filter (fun q => q.id != problemId), delCalls)
    else
      (403, store, [])

/-- `Solution.findById(id)` (server.js line 386). -/
def findSolution (store : List SolutionR) (i : Nat) : Option SolutionR :=
  store.find? (fun s => s.id == i)

/-- `solution.save()` on a document previously fetched by id. -/
def saveSolution (store : List SolutionR) (s : SolutionR) : List SolutionR :=
  store.map (fun t => if t.id = s.id then s else t)

/-- The JSON body answered by the upvote endpoint (server.js line 403):
the post-toggle array length and the `hasUpvoted` flag. -/
structure ToggleResponse where
  upvotes : Nat
  hasUpvoted : Bool
  deriving Repr, DecidableEq

/-- Outcome of the upvote endpoint: 404 with a message, or 200 with the
toggle response body. -/
inductive ToggleOutcome where
  | notFound (status : Nat) (message : String)
  | ok (resp : ToggleResponse)
  deriving Repr, DecidableEq

/-- POST `/api/solutions/:id/upvote` handler (server.js lines 384-407).
`indexOf` + `splice(index, 1)` removes the first occurrence of `userId`
when present (`List.erase`); `push` appends it when absent. `hasUpvoted`
answers `upvoteIndex === -1`, i.e. whether the user was absent before the
toggle. Returns (outcome, resulting store). -/
def toggleUpvote (store : List SolutionR) (solutionId userId : Nat) :
    ToggleOutcome × List SolutionR :=
  match findSolution store solutionId with
  | none => (.notFound 404 "Solution not found", store)
  | some s =>
    let newUp : List Nat :=
      if userId ∈ s.upvotes then s.upvotes.erase userId else s.upvotes ++ [userId]
    (.ok ⟨newUp.length, decide (userId ∉ s.upvotes)⟩,
      saveSolution store { s with upvotes := newUp })

/-- C5: `register(username, email, password)` fails with Conflict (400,
store unchanged) if and only if a stored user has the same email or the
same username; otherwise it stores only `hash password` (the bcrypt hash,
never the plaintext), creates the User, and answers 201 with the signed
token claims and the public summary {id, username, email}. -/
theorem register_conflict_iff_and_hashes (hash : String → String)
    (users : List UserR) (newId : Nat) (username email password : String) :
    ((register hash users newId username email password).1 =
        AuthResult.err 400 "User already exists" ∧
      (register hash users newId username email password).2 = users
      ↔ ∃ u ∈ users, u.email = email ∨ u.username = username) ∧
    ((∀ u ∈ users, u.email ≠ email ∧ u.username ≠ username) →
      register hash users newId username email password =
        (AuthResult.ok 201 "User created successfully" ⟨newId, username⟩
          ⟨newId, username, email⟩,
         users ++ [⟨newId, username, email, hash password⟩])) := by
  refine ⟨⟨?_, ?_⟩, ?_⟩
  · rintro ⟨h1, -⟩
    by_cases hc : existingUser users email username
    · simpa [existingUser, List.any_eq_true] using hc
    · simp [register, hc] at h1
  · intro hex
    have hc : existingUser users email username = true := by
      simpa [existingUser, List.any_eq_true] using hex
    simp [register, hc]
  · intro hno
    have hc : existingUser users email username = false := by
      simp only [existingUser, List.any_eq_false]
      intro u hu
      simpa using hno u hu
    simp [register, hc]

/-- Witness for `register_conflict_iff_and_hashes`: registering "alice"
into an empty store succeeds, persisting the hashed password. -/
theorem register_conflict_iff_and_hashes_witness :
    register (fun s => s ++ "#h") [] 1 "alice" "a@x" "pw" =
      (AuthResult.ok 201 "User created successfully" ⟨1, "alice"⟩
        ⟨1, "alice", "a@x"⟩,
       [⟨1, "alice", "a@x", "pw#h"⟩]) :=
  (register_conflict_iff_and_hashes (fun s => s ++ "#h") [] 1 "alice" "a@x" "pw").2
    (by simp)

/-- C6: the login failure responses for an unknown email and for a known
email with a failing password comparison are the identical value — status
400, body message "Invalid credentials" — so the two causes are
indistinguishable to the caller. -/
theorem login_uniform_invalid_credentials
    (compare1 compare2 : String → String → Bool)
    (users1 users2 : List UserR) (email1 password1 email2 password2 : String)
    (u : UserR)
    (h1 : findUserByEmail users1 email1 = none)
    (h2 : findUserByEmail users2 email2 = some u)
    (h3 : compare2 password2 u.password = false) :
    login compare1 users1 email1 password1 =
      login compare2 users2 email2 password2 ∧
    login compare1 users1 email1 password1 =
      AuthResult.err 400 "Invalid credentials" := by
  simp [login, h1, h2, h3]

/-- Witness for `login_uniform_invalid_credentials`: unknown email "a@x"
against an empty store vs. known email "b@x" with an always-failing
comparison. -/
theorem login_uniform_invalid_credentials_witness :
    login (fun _ _ => false) [] "a@x" "pw" =
      login (fun _ _ => false) [⟨1, "bob", "b@x", "H"⟩] "b@x" "pw" ∧
    login (fun _ _ => false) [] "a@x" "pw" =
      AuthResult.err 400 "Invalid credentials" :=
  login_uniform_invalid_credentials (fun _ _ => false) (fun _ _ => false)
    [] [⟨1, "bob", "b@x", "H"⟩] "a@x" "pw" "b@x" "pw" ⟨1, "bob", "b@x", "H"⟩
    rfl rfl rfl

/-- C1: a PUT on an existing Problem by an authenticated non-owner answers
403 and has no effect: the store is returned unchanged (no field of any
Problem is modified) and the Cloudinary call trace is empty. -/
theorem put_nonowner_forbidden_frame
    (upload : String → Except String String)
    (destroy : String → Except String Unit)
    (store : List ProblemR) (req : PutProblemRequest) (p : ProblemR)
    (hfind : findProblem store req.problemId = some p)
    (hown : p.postedBy ≠ req.userId) :
    putProblem upload destroy store req = (403, store, []) := by
  simp [putProblem, hfind, hown]

/-- Witness for `put_nonowner_forbidden_frame`: user 8 tries to update
problem 1 owned by user 7. -/
theorem put_nonowner_forbidden_frame_witness :
    putProblem (fun _ => Except.ok "u") (fun _ => Except.ok ())
      [⟨1, "T", "D", "L", none, 7, 0, "open"⟩] ⟨8, 1, none, none, none, none⟩ =
      (403, [⟨1, "T", "D", "L", none, 7, 0, "open"⟩], []) :=
  put_nonowner_forbidden_frame _ _ _ _ ⟨1, "T", "D", "L", none, 7, 0, "open"⟩
    rfl (by decide)

/-- C2: creating a Problem with attached image bytes whose upload fails
answers 500 and persists nothing: the store is returned unchanged, and the
trace holds only the failed upload attempt (the record is written only
after a successful upload). -/
theorem create_upload_failure_aborts
    (upload : String → Except String String) (store : List ProblemR)
    (newId now : Nat) (req : CreateProblemRequest) (bytes e : String)
    (hfile : req.file = some bytes)
    (hup : upload bytes = .error e) :
    createProblem upload store newId now req = (500, store, [.upload bytes]) := by
  simp [createProblem, hfile, hup]

/-- Witness for `create_upload_failure_aborts`: an always-failing upload on
a create request carrying bytes "IMG" leaves the empty store empty. -/
theorem create_upload_failure_aborts_witness :
    createProblem (fun _ => Except.error "boom") [] 1 0
      ⟨7, "T", "D", "L", some "IMG"⟩ = (500, [], [.upload "IMG"]) :=
  create_upload_failure_aborts (fun _ => Except.error "boom") [] 1 0
    ⟨7, "T", "D", "L", some "IMG"⟩ "IMG" "boom" rfl rfl

/-- C9: on an owner-authorized update of a Problem that has an image
reference and carries new image bytes, the destroy of the old reference is
issued strictly before the upload attempt (trace order), and when the
upload then fails the handler answers 500 with the store unchanged, so the
stored Problem still carries the old — already destroyed — reference. -/
theorem put_destroy_before_upload_dangling
    (upload : String → Except String String)
    (destroy : String → Except String Unit)
    (store : List ProblemR) (req : PutProblemRequest) (p : ProblemR)
    (oldRef bytes e : String)
    (hfind : findProblem store req.problemId = some p)
    (hown : p.postedBy = req.userId)
    (himg : p.image = some oldRef)
    (hfile : req.file = some bytes)
    (hup : upload bytes = .error e) :
    putProblem upload destroy store req =
      (500, store, [.destroy (publicIdOf oldRef), .upload bytes]) ∧
    (findProblem store req.problemId).bind (fun q => q.image) = some oldRef := by
  constructor
  · simp [putProblem, hfind, hown, himg, hfile, hup]
  · simp [hfind, himg]

/-- Witness for `put_destroy_before_upload_dangling`: owner 7 updates
problem 1 whose image is "http://c/x/old.png" with bytes "IMG"; the upload
fails after the destroy of public id "crowdsolve/old". -/
theorem put_destroy_before_upload_dangling_witness :
    putProblem (fun _ => Except.error "boom") (fun _ => Except.ok ())
      [⟨1, "T", "D", "L", some "http://c/x/old.png", 7, 0, "open"⟩]
      ⟨7, 1, none, none, none, some "IMG"⟩ =
      (500, [⟨1, "T", "D", "L", some "http://c/x/old.png", 7, 0, "open"⟩],
        [.destroy (publicIdOf "http://c/x/old.png"), .upload "IMG"]) ∧
    (findProblem [⟨1, "T", "D", "L", some "http://c/x/old.png", 7, 0, "open"⟩]
      1).bind (fun q => q.image) = some "http://c/x/old.png" :=
  put_destroy_before_upload_dangling (fun _ => Except.error "boom")
    (fun _ => Except.ok ())
    [⟨1, "T", "D", "L", some "http://c/x/old.png", 7, 0, "open"⟩]
    ⟨7, 1, none, none, none, some "IMG"⟩
    ⟨1, "T", "D", "L", some "http://c/x/old.png", 7, 0, "open"⟩
    "http://c/x/old.png" "IMG" "boom" rfl rfl rfl rfl rfl

/-- C8: an owner-authorized delete of a Problem with an attached image
answers 200, issues exactly one Cloudinary destroy call — on the public id
parsed from that image reference — removes the record (the id is no longer
found; every other record survives), and none of this depends on the
destroy call's outcome: any two destroy oracles yield the same result, so
a destroy failure is swallowed. -/
theorem delete_problem_with_image
    (destroy1 destroy2 : String → Except String Unit)
    (store : List ProblemR) (userId problemId : Nat) (p : ProblemR)
    (ref : String)
    (hfind : findProblem store problemId = some p)
    (hown : p.postedBy = userId)
    (himg : p.image = some ref) :
    (deleteProblem destroy1 store userId problemId).1 = 200 ∧
    (deleteProblem destroy1 store userId problemId).2.2 =
      [.destroy (publicIdOf ref)] ∧
    findProblem (deleteProblem destroy1 store userId problemId).2.1
      problemId = none ∧
    (∀ q ∈ store, q.id ≠ problemId →
      q ∈ (deleteProblem destroy1 store userId problemId).2.1) ∧
    deleteProblem destroy1 store userId problemId =
      deleteProblem destroy2 store userId problemId := by
  have hres : deleteProblem destroy1 store userId problemId =
      (200, store.filter (fun q => q.id != problemId),
        [.destroy (publicIdOf ref)]) := by
    simp [deleteProblem, hfind, hown, himg]
  have hres2 : deleteProblem destroy2 store userId problemId =
      (200, store.filter (fun q => q.id != problemId),
        [.destroy (publicIdOf ref)]) := by
    simp [deleteProblem, hfind, hown, himg]
  refine ⟨by rw [hres], by rw [hres], ?_, ?_, by rw [hres, hres2]⟩
  · rw [hres]
    simp [findProblem, List.find?_eq_none, List.mem_filter]
  · intro q hq hne
    rw [hres]
    simp [List.mem_filter, hq, hne]

/-- Witness for `delete_problem_with_image`: owner 7 deletes problem 1
with image "http://c/x/old.png"; an always-failing destroy oracle and an
always-succeeding one agree. -/
theorem delete_problem_with_image_witness :
    (deleteProblem (fun _ => Except.error "down")
      [⟨1, "T", "D", "L", some "http://c/x/old.png", 7, 0, "open"⟩] 7 1).1 =
      200 ∧
    (deleteProblem (fun _ => Except.error "down")
      [⟨1, "T", "D", "L", some "http://c/x/old.png", 7, 0, "open"⟩] 7 1).2.2 =
      [.destroy (publicIdOf "http://c/x/old.png")] ∧
    findProblem (deleteProblem (fun _ => Except.error "down")
      [⟨1, "T", "D", "L", some "http://c/x/old.png", 7, 0, "open"⟩] 7 1).2.1
      1 = none ∧
    (∀ q ∈ [(⟨1, "T", "D", "L", some "http://c/x/old.png", 7, 0, "open"⟩ :
        ProblemR)], q.id ≠ 1 →
      q ∈ (deleteProblem (fun _ => Except.error "down")
        [⟨1, "T", "D", "L", some "http://c/x/old.png", 7, 0, "open"⟩] 7 1).2.1) ∧
    deleteProblem (fun _ => Except.error "down")
      [⟨1, "T", "D", "L", some "http://c/x/old.png", 7, 0, "open"⟩] 7 1 =
      deleteProblem (fun _ => Except.ok ())
        [⟨1, "T", "D", "L", some "http://c/x/old.png", 7, 0, "open"⟩] 7 1 :=
  delete_problem_with_image (fun _ => Except.error "down") (fun _ => Except.ok ())
    [⟨1, "T", "D", "L", some "http://c/x/old.png", 7, 0, "open"⟩] 7 1
    ⟨1, "T", "D", "L", some "http://c/x/old.png", 7, 0, "open"⟩
    "http://c/x/old.png" rfl rfl rfl

/-- Auxiliary: a record located by key through `find?` is, after replacing
the store's record of that key, located as the replacement. -/
theorem find_replace_by_key {α : Type} (key : α → Nat) (store : List α)
    (i : Nat) (s t : α)
    (hf : store.find? (fun q => key q == i) = some s) (hid : key t = key s) :
    (store.map (fun q => if key q = key t then t else q)).find?
      (fun q => key q == i) = some t := by
  have hsi : key s = i := by simpa using List.find?_some hf
  induction store with
  | nil => simp at hf
  | cons q rest ih =>
    rw [List.map_cons]
    by_cases hq : key q = i
    · have hb : (key q == i) = true := by simpa using hq
      simp only [List.find?, hb] at hf
      have hsq : s = q := (Option.some.inj hf).symm
      have hqt : key q = key t := by rw [hq, hid, hsq, hq]
      rw [if_pos hqt]
      have hbt : (key t == i) = true := by
        simp [hid, hsi]
      simp only [List.find?, hbt]
    · have hb : (key q == i) = false := by simpa using hq
      simp only [List.find?, hb] at hf
      have hqt : key q ≠ key t := by
        rw [hid, hsi]; exact hq
      rw [if_neg hqt]
      simp only [List.find?, hb]
      exact ih hf

/-- Auxiliary: `findSolution` after `saveSolution` of a record with the
found record's id yields the saved record. -/
theorem findSolution_saveSolution (store : List SolutionR) (i : Nat)
    (s t : SolutionR)
    (hf : findSolution store i = some s) (hid : t.id = s.id) :
    findSolution (saveSolution store t) i = some t := by
  unfold findSolution at hf
  unfold findSolution saveSolution
  exact find_replace_by_key (fun r => r.id) store i s t hf hid

/-- C3: the upvote toggle answers 404 "Solution not found" with the store
unchanged when the solution id is absent; otherwise (for a solution whose
upvote list is duplicate-free, as the toggle itself maintains) it removes
`userId` from `upvotes` when present and appends it when absent, persists
the result, and answers the post-toggle upvote count together with a
`hasUpvoted` flag that equals the post-toggle membership of `userId`. -/
theorem toggle_upvote_spec (store : List SolutionR) (solutionId userId : Nat) :
    (findSolution store solutionId = none →
      toggleUpvote store solutionId userId =
        (.notFound 404 "Solution not found", store)) ∧
    (∀ s, findSolution store solutionId = some s → s.upvotes.Nodup →
      ∃ newUp,
        ((userId ∈ s.upvotes →
            newUp = s.upvotes.erase userId ∧ userId ∉ newUp) ∧
         (userId ∉ s.upvotes → newUp = s.upvotes ++ [userId])) ∧
        toggleUpvote store solutionId userId =
          (.ok ⟨newUp.length, decide (userId ∈ newUp)⟩,
            saveSolution store { s with upvotes := newUp }) ∧
        findSolution (toggleUpvote store solutionId userId).2 solutionId =
          some { s with upvotes := newUp }) := by
  constructor
  · intro hnone
    simp [toggleUpvote, hnone]
  · intro s hfind hnd
    by_cases hmem : userId ∈ s.upvotes
    · refine ⟨s.upvotes.erase userId, ⟨fun _ => ⟨rfl, ?_⟩, fun hab => absurd hmem hab⟩, ?_, ?_⟩
      · intro hcon
        exact ((List.Nodup.mem_erase_iff hnd).1 hcon).1 rfl
      · have hdec : decide (userId ∈ s.upvotes.erase userId) = false := by
          simp [List.Nodup.mem_erase_iff hnd]
        simp [toggleUpvote, hfind, hmem, hdec]
      · have h2 : (toggleUpvote store solutionId userId).2 =
            saveSolution store { s with upvotes := s.upvotes.erase userId } := by
          simp [toggleUpvote, hfind, hmem]
        rw [h2]
        exact findSolution_saveSolution store solutionId s _ hfind rfl
    · refine ⟨s.upvotes ++ [userId], ⟨fun hab => absurd hab hmem, fun _ => rfl⟩, ?_, ?_⟩
      · have hdec : decide (userId ∈ s.upvotes ++ [userId]) = true := by simp
        simp [toggleUpvote, hfind, hmem, hdec]
      · have h2 : (toggleUpvote store solutionId userId).2 =
            saveSolution store { s with upvotes := s.upvotes ++ [userId] } := by
          simp [toggleUpvote, hfind, hmem]
        rw [h2]
        exact findSolution_saveSolution store solutionId s _ hfind rfl

/-- Witness for `toggle_upvote_spec`: user 9 toggles solution 3 whose
upvote list is [9, 5]; 9 is removed, count drops to 1, hasUpvoted false. -/
theorem toggle_upvote_spec_witness :
    findSolution [(⟨3, "S", 1, 7, [9, 5], 0⟩ : SolutionR)] 3 =
      some ⟨3, "S", 1, 7, [9, 5], 0⟩ ∧
    ([9, 5] : List Nat).Nodup ∧
    ∃ newUp,
      ((9 ∈ ([9, 5] : List Nat) → newUp = ([9, 5] : List Nat).erase 9 ∧ 9 ∉ newUp) ∧
       (9 ∉ ([9, 5] : List Nat) → newUp = [9, 5] ++ [9])) ∧
      toggleUpvote [⟨3, "S", 1, 7, [9, 5], 0⟩] 3 9 =
        (.ok ⟨newUp.length, decide (9 ∈ newUp)⟩,
          saveSolution [⟨3, "S", 1, 7, [9, 5], 0⟩] ⟨3, "S", 1, 7, newUp, 0⟩) ∧
      findSolution (toggleUpvote [⟨3, "S", 1, 7, [9, 5], 0⟩] 3 9).2 3 =
        some ⟨3, "S", 1, 7, newUp, 0⟩ :=
  ⟨rfl, by decide,
    (toggle_upvote_spec [⟨3, "S", 1, 7, [9, 5], 0⟩] 3 9).2
      ⟨3, "S", 1, 7, [9, 5], 0⟩ rfl (by decide)⟩

/-- C4: toggling the upvote of an existing solution twice with the same
user (no interleaving, duplicate-free upvote list) returns the stored
upvote list to a permutation of its original value — same count and same
membership for every user. A user absent before the first toggle gets the
exact original list back; a user present gets it back up to position. -/
theorem toggle_twice_restores (store : List SolutionR) (solutionId userId : Nat)
    (s : SolutionR)
    (hfind : findSolution store solutionId = some s)
    (hnd : s.upvotes.Nodup) :
    ∃ s2, findSolution
        (toggleUpvote (toggleUpvote store solutionId userId).2 solutionId
          userId).2 solutionId = some s2 ∧
      s2.upvotes.Perm s.upvotes ∧
      s2.upvotes.length = s.upvotes.length ∧
      (∀ x, x ∈ s2.upvotes ↔ x ∈ s.upvotes) := by
  by_cases hmem : userId ∈ s.upvotes
  · have h1 : (toggleUpvote store solutionId userId).2 =
        saveSolution store { s with upvotes := s.upvotes.erase userId } := by
      simp [toggleUpvote, hfind, hmem]
    have hfind1 : findSolution
        (saveSolution store { s with upvotes := s.upvotes.erase userId })
        solutionId = some { s with upvotes := s.upvotes.erase userId } :=
      findSolution_saveSolution store solutionId s _ hfind rfl
    have hnotmem : userId ∉ s.upvotes.erase userId := fun hcon =>
      ((List.Nodup.mem_erase_iff hnd).1 hcon).1 rfl
    have h2 : (toggleUpvote
        (saveSolution store { s with upvotes := s.upvotes.erase userId })
        solutionId userId).2 =
        saveSolution
          (saveSolution store { s with upvotes := s.upvotes.erase userId })
          { s with upvotes := s.upvotes.erase userId ++ [userId] } := by
      simp [toggleUpvote, hfind1, hnotmem]
    have hfind2 : findSolution (saveSolution
        (saveSolution store { s with upvotes := s.upvotes.erase userId })
        { s with upvotes := s.upvotes.erase userId ++ [userId] })
        solutionId = some { s with upvotes := s.upvotes.erase userId ++ [userId] } :=
      findSolution_saveSolution _ solutionId
        { s with upvotes := s.upvotes.erase userId } _ hfind1 rfl
    have hperm : (s.upvotes.erase userId ++ [userId]).Perm s.upvotes :=
      (List.perm_append_singleton userId _).trans
        (List.perm_cons_erase hmem).symm
    exact ⟨{ s with upvotes := s.upvotes.erase userId ++ [userId] },
      by rw [h1, h2]; exact hfind2, hperm, hperm.length_eq,
      fun x => hperm.mem_iff⟩
  · have h1 : (toggleUpvote store solutionId userId).2 =
        saveSolution store { s with upvotes := s.upvotes ++ [userId] } := by
      simp [toggleUpvote, hfind, hmem]
    have hfind1 : findSolution
        (saveSolution store { s with upvotes := s.upvotes ++ [userId] })
        solutionId = some { s with upvotes := s.upvotes ++ [userId] } :=
      findSolution_saveSolution store solutionId s _ hfind rfl
    have hmem1 : userId ∈ s.upvotes ++ [userId] := by simp
    have herase : (s.upvotes ++ [userId]).erase userId = s.upvotes := by
      rw [List.erase_append_right _ hmem, List.erase_cons_head]
      simp
    have h2 : (toggleUpvote
        (saveSolution store { s with upvotes := s.upvotes ++ [userId] })
        solutionId userId).2 =
        saveSolution
          (saveSolution store { s with upvotes := s.upvotes ++ [userId] })
          { s with upvotes := s.upvotes } := by
      simp [toggleUpvote, hfind1, hmem1, herase]
    have hfind2 : findSolution (saveSolution
        (saveSolution store { s with upvotes := s.upvotes ++ [userId] })
        { s with upvotes := s.upvotes })
        solutionId = some { s with upvotes := s.upvotes } :=
      findSolution_saveSolution _ solutionId
        { s with upvotes := s.upvotes ++ [userId] } _ hfind1 rfl
    exact ⟨{ s with upvotes := s.upvotes }, by rw [h1, h2]; exact hfind2,
      List.Perm.refl _, rfl, fun x => Iff.rfl⟩

/-- Witness for `toggle_twice_restores`: user 9 toggles solution 3 (upvote
list [9, 5]) twice; the final list is a permutation of [9, 5] with length
2 and the same members. -/
theorem toggle_twice_restores_witness :
    ∃ s2, findSolution
        (toggleUpvote (toggleUpvote [(⟨3, "S", 1, 7, [9, 5], 0⟩ : SolutionR)]
          3 9).2 3 9).2 3 = some s2 ∧
      s2.upvotes.Perm [9, 5] ∧
      s2.upvotes.length = ([9, 5] : List Nat).length ∧
      (∀ x, x ∈ s2.upvotes ↔ x ∈ ([9, 5] : List Nat)) :=
  toggle_twice_restores [⟨3, "S", 1, 7, [9, 5], 0⟩] 3 9
    ⟨3, "S", 1, 7, [9, 5], 0⟩ rfl (by decide)

/-- Auxiliary: `findProblem` after `saveProblem` of a record with the found
record's id yields the saved record. -/
theorem findProblem_saveProblem (store : List ProblemR) (i : Nat)
    (p t : ProblemR)
    (hf : findProblem store i = some p) (hid : t.id = p.id) :
    findProblem (saveProblem store t) i = some t := by
  unfold findProblem at hf
  unfold findProblem saveProblem
  exact find_replace_by_key (fun r => r.id) store i p t hf hid

/-- Counterexample to C7 as stated: owner 7 updates problem 1 (stored
title "Old") providing `title = ""` in the body. The claim demands the
provided empty string win, i.e. the stored title become ""; but the merge
is the JavaScript falsy `||`, so the stored title stays "Old". -/
theorem put_empty_string_not_overwritten :
    (findProblem (putProblem (fun _ => Except.ok "u") (fun _ => Except.ok ())
        [⟨1, "Old", "D", "L", none, 7, 0, "open"⟩]
        ⟨7, 1, some "", none, none, none⟩).2.1 1).map (fun q => q.title) =
      some "Old" ∧
    (findProblem (putProblem (fun _ => Except.ok "u") (fun _ => Except.ok ())
        [⟨1, "Old", "D", "L", none, 7, 0, "open"⟩]
        ⟨7, 1, some "", none, none, none⟩).2.1 1).map (fun q => q.title) ≠
      some "" := by
  refine ⟨rfl, ?_⟩
  intro h
  rw [show (findProblem (putProblem (fun _ => Except.ok "u")
      (fun _ => Except.ok ()) [⟨1, "Old", "D", "L", none, 7, 0, "open"⟩]
      ⟨7, 1, some "", none, none, none⟩).2.1 1).map (fun q => q.title) =
      some "Old" from rfl] at h
  simp at h

/-- C7 amended: on an owner-authorized update without new image bytes, the
body fields are merged with JavaScript falsy-or semantics: a provided
non-empty value overwrites the field, while an omitted field — and, unlike
the claim's wording, also a provided empty string — keeps the old value;
id, image, owner, creation time and status are untouched, and the merged
record is what gets persisted. -/
theorem put_partial_update_falsy
    (upload : String → Except String String)
    (destroy : String → Except String Unit)
    (store : List ProblemR) (req : PutProblemRequest) (p : ProblemR)
    (hfind : findProblem store req.problemId = some p)
    (hown : p.postedBy = req.userId)
    (hnofile : req.file = none) :
    ∃ p1,
      putProblem upload destroy store req = (200, saveProblem store p1, []) ∧
      findProblem (putProblem upload destroy store req).2.1 req.problemId =
        some p1 ∧
      p1.id = p.id ∧ p1.image = p.image ∧ p1.postedBy = p.postedBy ∧
      p1.createdAt = p.createdAt ∧ p1.status = p.status ∧
      (∀ v, req.title = some v → v ≠ "" → p1.title = v) ∧
      (req.title = none ∨ req.title = some "" → p1.title = p.title) ∧
      (∀ v, req.description = some v → v ≠ "" → p1.description = v) ∧
      (req.description = none ∨ req.description = some "" →
        p1.description = p.description) ∧
      (∀ v, req.location = some v → v ≠ "" → p1.location = v) ∧
      (req.location = none ∨ req.location = some "" →
        p1.location = p.location) := by
  have hmain : putProblem upload destroy store req =
      (200, saveProblem store { p with
        title := jsFalsyOr req.title p.title
        description := jsFalsyOr req.description p.description
        location := jsFalsyOr req.location p.location }, []) := by
    simp [putProblem, hfind, hown, hnofile]
  refine ⟨{ p with
      title := jsFalsyOr req.title p.title
      description := jsFalsyOr req.description p.description
      location := jsFalsyOr req.location p.location },
    hmain, ?_, rfl, rfl, rfl, rfl, rfl, ?_, ?_, ?_, ?_, ?_, ?_⟩
  · rw [hmain]
    exact findProblem_saveProblem store req.problemId p _ hfind rfl
  · intro v hv hne
    simp [hv, jsFalsyOr, hne]
  · rintro (h | h) <;> simp [h, jsFalsyOr]
  · intro v hv hne
    simp [hv, jsFalsyOr, hne]
  · rintro (h | h) <;> simp [h, jsFalsyOr]
  · intro v hv hne
    simp [hv, jsFalsyOr, hne]
  · rintro (h | h) <;> simp [h, jsFalsyOr]

/-- Witness for `put_partial_update_falsy`: owner 7 updates problem 1
providing title "New", omitting description, and providing location "";
the stored record reads ("New", "D", "L"). -/
theorem put_partial_update_falsy_witness :
    (findProblem (putProblem (fun _ => Except.ok "u") (fun _ => Except.ok ())
        [⟨1, "Old", "D", "L", none, 7, 0, "open"⟩]
        ⟨7, 1, some "New", none, some "", none⟩).2.1 1).map
      (fun q => (q.title, q.description, q.location)) =
      some ("New", "D", "L") := by
  obtain ⟨p1, -, hfind, -, -, -, -, -, ht1, -, -, hd2, -, hl2⟩ :=
    put_partial_update_falsy (fun _ => Except.ok "u") (fun _ => Except.ok ())
      [⟨1, "Old", "D", "L", none, 7, 0, "open"⟩]
      ⟨7, 1, some "New", none, some "", none⟩
      ⟨1, "Old", "D", "L", none, 7, 0, "open"⟩ rfl rfl rfl
  rw [hfind]
  simp [ht1 "New" rfl (by decide), hd2 (Or.inl rfl), hl2 (Or.inr rfl)]

/-- Auxiliary: a record of the store after a `saveProblem` is the saved
record or an original record. -/
theorem mem_saveProblem (store : List ProblemR) (t q : ProblemR)
    (hq : q ∈ saveProblem store t) : q = t ∨ q ∈ store := by
  unfold saveProblem at hq
  rcases List.mem_map.1 hq with ⟨a, ha, hfa⟩
  by_cases h : a.id = t.id
  · rw [if_pos h] at hfa
    exact Or.inl hfa.symm
  · rw [if_neg h] at hfa
    exact Or.inr (hfa ▸ ha)

/-- C10: every Problem reachable through the API has status "open" and
immutable ownership and creation time: when all stored Problems have
status "open", they still all do after any create (the handler writes the
schema default "open" and never sets status), any update (which merges
only title, description, location and image), and any delete; moreover
every record surviving an update keeps the owner and creation time of the
record that had its id before. -/
theorem problem_status_open_invariant
    (store : List ProblemR) (hall : ∀ q ∈ store, q.status = "open") :
    (∀ (upload : String → Except String String) (newId now : Nat)
      (req : CreateProblemRequest),
      ∀ q ∈ (createProblem upload store newId now req).2.1,
        q.status = "open") ∧
    (∀ (upload : String → Except String String)
      (destroy : String → Except String Unit) (req : PutProblemRequest),
      ∀ q ∈ (putProblem upload destroy store req).2.1,
        q.status = "open" ∧
        ∃ q0 ∈ store, q0.id = q.id ∧ q.postedBy = q0.postedBy ∧
          q.createdAt = q0.createdAt) ∧
    (∀ (destroy : String → Except String Unit) (userId problemId : Nat),
      ∀ q ∈ (deleteProblem destroy store userId problemId).2.1,
        q.status = "open") := by
  refine ⟨?_, ?_, ?_⟩
  · intro upload newId now req q hq
    rcases hfile : req.file with _ | bytes
    · simp only [createProblem, hfile] at hq
      rcases List.mem_append.1 hq with h | h
      · exact hall q h
      · rw [List.mem_singleton.1 h]
    · rcases hup : upload bytes with e | ref
      · simp only [createProblem, hfile, hup] at hq
        exact hall q hq
      · simp only [createProblem, hfile, hup] at hq
        rcases List.mem_append.1 hq with h | h
        · exact hall q h
        · rw [List.mem_singleton.1 h]
  · intro upload destroy req q hq
    rcases hfind : findProblem store req.problemId with _ | p
    · simp only [putProblem, hfind] at hq
      exact ⟨hall q hq, q, hq, rfl, rfl, rfl⟩
    · have hpmem : p ∈ store := List.mem_of_find?_eq_some hfind
      by_cases hown : p.postedBy = req.userId
      · rcases hfile : req.file with _ | bytes
        · simp only [putProblem, hfind, hfile, if_pos hown] at hq
          rcases mem_saveProblem store _ q hq with h | h
          · subst h
            exact ⟨hall p hpmem, p, hpmem, rfl, rfl, rfl⟩
          · exact ⟨hall q h, q, h, rfl, rfl, rfl⟩
        · rcases hup : upload bytes with e | ref
          · simp only [putProblem, hfind, hfile, hup, if_pos hown] at hq
            exact ⟨hall q hq, q, hq, rfl, rfl, rfl⟩
          · simp only [putProblem, hfind, hfile, hup, if_pos hown] at hq
            rcases mem_saveProblem store _ q hq with h | h
            · subst h
              exact ⟨hall p hpmem, p, hpmem, rfl, rfl, rfl⟩
            · exact ⟨hall q h, q, h, rfl, rfl, rfl⟩
      · simp only [putProblem, hfind, if_neg hown] at hq
        exact ⟨hall q hq, q, hq, rfl, rfl, rfl⟩
  · intro destroy userId problemId q hq
    rcases hfind : findProblem store problemId with _ | p
    · simp only [deleteProblem, hfind] at hq
      exact hall q hq
    · by_cases hown : p.postedBy = userId
      · simp only [deleteProblem, hfind, if_pos hown] at hq
        exact hall q (List.mem_of_mem_filter hq)
      · simp only [deleteProblem, hfind, if_neg hown] at hq
        exact hall q hq

/-- Witness for `problem_status_open_invariant`: from a singleton "open"
store, create problem 2 without image; the freshly stored record — a
member of the resulting store — has status "open". -/
theorem problem_status_open_invariant_witness :
    (⟨2, "T2", "D2", "L2", none, 8, 5, "open"⟩ : ProblemR).status = "open" :=
  (problem_status_open_invariant [⟨1, "T", "D", "L", none, 7, 0, "open"⟩]
    (by simp)).1 (fun _ => Except.ok "u") 2 5 ⟨8, "T2", "D2", "L2", none⟩
    ⟨2, "T2", "D2", "L2", none, 8, 5, "open"⟩ (by decide)
